import Mathlib

/-!
# Verification of the shipper/keelan container engine core

Shallow embedding of the layer resolver, overlay filesystem manager,
build pipeline cleanup, daemon control protocol and process-liveness
probe of the repository, with theorems settling the specification
claims about them.
-/

namespace Shipper

/-- A persisted crate/layer metadata record (table `keelan_crate`):
only the fields the resolver reads. -/
structure CrateRow where
  name : String
  baseImage : String
  deriving Repr, DecidableEq

/-- The crate table, queried by name. -/
abbrev LayerDb := List CrateRow

/-- `db.select().from(keelanCrate).where(eq(name, n)).limit(1)`:
first record with the given name, if any. -/
def findCrate (db : LayerDb) (n : String) : Option CrateRow :=
  db.find? (fun c => c.name == n)

/-- Result of `resolveLayer`: the ordered layer list, or the thrown error
message.  `stackOverflowMsg` stands for the unbounded-recursion failure of
the source (which has no fuel); every claim is stated with enough fuel. -/
def stackOverflowMsg : String := "RangeError: Maximum call stack size exceeded"

/-- `resolveLayer` from `src/unnamed/part_018`, the current revision of
`src/core/layer.ts` used by the keelan-era handlers (the older variant
kept at `src/src/core/layer.ts` queries a `shipperImages` table that the
database schema no longer defines and is superseded): the sentinel root
layer `"debian"` resolves to itself; otherwise look up the record, throw
`Layer <name> not found` if absent, recursively resolve the base image
and prepend the current name when not already present.  `fuel` bounds
the recursion depth (the source recurses unboundedly). -/
def resolveLayer : Nat → LayerDb → String → Except String (List String)
  | 0, _, _ => .error stackOverflowMsg
  | fuel + 1, db, name =>
    if name = "debian" then
      .ok [name]
    else
      match findCrate db name with
      | none => .error ("Layer " ++ name ++ " not found")
      | some c =>
        match resolveLayer fuel db c.baseImage with
        | .error e => .error e
        | .ok baseLayers =>
          if name ∈ baseLayers then .ok baseLayers else .ok (name :: baseLayers)

/-- The ancestor chain of a layer name, as recorded in the database:
follows `baseImage` links until the sentinel `"debian"`, `none` when a
link is missing or the fuel runs out (cycle). -/
def chainOf : Nat → LayerDb → String → Option (List String)
  | 0, _, _ => none
  | fuel + 1, db, name =>
    if name = "debian" then
      some [name]
    else
      match findCrate db name with
      | none => none
      | some c => (chainOf fuel db c.baseImage).map (fun l => name :: l)

theorem chainOf_mono {fuel : Nat} {db : LayerDb} {name : String} {l : List String}
    (h : chainOf fuel db name = some l) : chainOf (fuel + 1) db name = some l := by
  induction fuel generalizing name l with
  | zero => simp [chainOf] at h
  | succ n ih =>
    rw [chainOf] at h
    rw [chainOf]
    by_cases hd : name = "debian"
    · simpa [hd] using h
    · simp only [if_neg hd] at h ⊢
      cases hfind : findCrate db name with
      | none => simp [hfind] at h
      | some c =>
        simp only [hfind] at h ⊢
        cases hc : chainOf n db c.baseImage with
        | none => simp [hc] at h
        | some l' => simp [ih hc, hc] at h ⊢; exact h

theorem chainOf_mono_le {fuel fuel' : Nat} {db : LayerDb} {name : String}
    {l : List String} (hle : fuel ≤ fuel') (h : chainOf fuel db name = some l) :
    chainOf fuel' db name = some l := by
  induction fuel' with
  | zero => exact Nat.le_zero.mp hle ▸ h
  | succ n ih =>
    rcases Nat.lt_or_ge fuel (n + 1) with hlt | hge
    · exact chainOf_mono (ih (Nat.lt_succ_iff.mp hlt))
    · have : fuel = n + 1 := Nat.le_antisymm hle hge
      exact this ▸ h

/-- Every member of a terminating chain starts its own terminating chain,
a suffix of the original. -/
theorem chainOf_mem_suffix {fuel : Nat} {db : LayerDb} {name m : String}
    {l : List String} (h : chainOf fuel db name = some l) (hm : m ∈ l) :
    ∃ s, s.IsSuffix l ∧ chainOf fuel db m = some s := by
  induction fuel generalizing name l with
  | zero => simp [chainOf] at h
  | succ n ih =>
    rw [chainOf] at h
    by_cases hd : name = "debian"
    · simp only [if_pos hd] at h
      injection h with h2
      subst h2
      obtain rfl : m = name := by simpa using hm
      exact ⟨[m], List.suffix_refl _, by rw [chainOf]; simp [hd]⟩
    · simp only [if_neg hd] at h
      cases hfind : findCrate db name with
      | none => simp [hfind] at h
      | some c =>
        simp only [hfind] at h
        cases hc : chainOf n db c.baseImage with
        | none => simp [hc] at h
        | some l' =>
          simp only [hc, Option.map_some'] at h
          injection h with h2; subst h2
          rcases List.mem_cons.mp hm with rfl | hm'
          · refine ⟨m :: l', List.suffix_refl _, ?_⟩
            rw [chainOf]
            simp [hd, hfind, hc]
          · obtain ⟨s, hs, hcs⟩ := ih hc hm'
            exact ⟨s, hs.trans (List.suffix_cons name l'), chainOf_mono hcs⟩

/-- A terminating chain has no duplicate names. -/
theorem chainOf_nodup {fuel : Nat} {db : LayerDb} {name : String}
    {l : List String} (h : chainOf fuel db name = some l) : l.Nodup := by
  induction fuel generalizing name l with
  | zero => simp [chainOf] at h
  | succ n ih =>
    rw [chainOf] at h
    by_cases hd : name = "debian"
    · simp only [if_pos hd] at h
      injection h with h2; subst h2
      simp
    · simp only [if_neg hd] at h
      cases hfind : findCrate db name with
      | none => simp [hfind] at h
      | some c =>
        simp only [hfind] at h
        cases hc : chainOf n db c.baseImage with
        | none => simp [hc] at h
        | some l' =>
          simp only [hc, Option.map_some'] at h
          injection h with h2; subst h2
          refine List.nodup_cons.mpr ⟨?_, ih hc⟩
          intro hmem
          obtain ⟨s, hs, hcs⟩ := chainOf_mem_suffix hc hmem
          have h1 : chainOf (n + 1) db name = some s := chainOf_mono hcs
          have h2 : chainOf (n + 1) db name = some (name :: l') := by
            rw [chainOf]; simp [hd, hfind, hc]
          have hsl : s = name :: l' := by
            rw [h1] at h2; exact (Option.some.injEq _ _).mp h2
          have hlen : s.length ≤ l'.length := hs.length_le
          rw [hsl] at hlen
          simp at hlen

/-- When the recorded ancestor chain of `name` terminates at the sentinel,
`resolveLayer` returns exactly that chain. -/
theorem resolveLayer_eq_chain {fuel : Nat} {db : LayerDb} {name : String}
    {l : List String} (h : chainOf fuel db name = some l) :
    resolveLayer fuel db name = .ok l := by
  induction fuel generalizing name l with
  | zero => simp [chainOf] at h
  | succ n ih =>
    have hnodup := chainOf_nodup h
    rw [chainOf] at h
    rw [resolveLayer]
    by_cases hd : name = "debian"
    · simp only [if_pos hd] at h ⊢
      injection h with h2; subst h2
      rfl
    · simp only [if_neg hd] at h ⊢
      cases hfind : findCrate db name with
      | none => simp [hfind] at h
      | some c =>
        simp only [hfind] at h ⊢
        cases hc : chainOf n db c.baseImage with
        | none => simp [hc] at h
        | some l' =>
          simp only [hc, Option.map_some'] at h
          injection h with h2; subst h2
          rw [ih hc]
          have hnotmem : name ∉ l' := (List.nodup_cons.mp hnodup).1
          simp [hnotmem]

/-- C1. For a chain whose `baseImage` links terminate at the sentinel root
layer, `resolveLayer` returns the ordered chain closest-ancestor-first,
with no duplicates; the sentinel resolves to the singleton list of itself;
and a second call on the same arguments gives the identical output (the
resolver only reads the database). -/
theorem resolveLayer_resolves_chain {fuel : Nat} {db : LayerDb} {name : String}
    {l : List String} (h : chainOf fuel db name = some l) :
    resolveLayer fuel db name = .ok l ∧ l.Nodup ∧
      (∀ k, resolveLayer (k + 1) db "debian" = .ok ["debian"]) ∧
      resolveLayer fuel db name = resolveLayer fuel db name :=
  ⟨resolveLayer_eq_chain h, chainOf_nodup h,
    fun k => by rw [resolveLayer]; simp, rfl⟩

/-- Example database with the chain `A → B → C → debian`. -/
def exLayerDb : LayerDb := [⟨"A", "B"⟩, ⟨"B", "C"⟩, ⟨"C", "debian"⟩]

/-- Witness for C1 on the chain `A → B → C → debian`. -/
theorem resolveLayer_resolves_chain_witness :
    resolveLayer 9 exLayerDb "A" = .ok ["A", "B", "C", "debian"] ∧
      (["A", "B", "C", "debian"] : List String).Nodup ∧
      resolveLayer 9 exLayerDb "debian" = .ok ["debian"] := by
  have h := @resolveLayer_resolves_chain 9 exLayerDb "A"
    ["A", "B", "C", "debian"] (by decide)
  exact ⟨h.1, h.2.1, h.2.2.1 8⟩

/-- `name`'s ancestor chain reaches, after `k` hops, a non-sentinel layer
`m` that has no persisted record. -/
inductive ReachesMissing (db : LayerDb) : Nat → String → String → Prop
  | here {name : String} : name ≠ "debian" → findCrate db name = none →
      ReachesMissing db 0 name name
  | step {name m : String} {c : CrateRow} {k : Nat} : name ≠ "debian" →
      findCrate db name = some c → ReachesMissing db k c.baseImage m →
      ReachesMissing db (k + 1) name m

/-- C2. Resolving a name whose chain reaches a missing non-sentinel layer
`m` fails with the `LayerNotFound` error naming `m` itself — not the
originally requested name, and not some other error. -/
theorem resolveLayer_missing_names_missing_layer {db : LayerDb} {k : Nat}
    {name m : String} (h : ReachesMissing db k name m) :
    ∀ fuel, k < fuel →
      resolveLayer fuel db name = .error ("Layer " ++ m ++ " not found") := by
  induction h with
  | here hd hfind =>
    intro fuel hfuel
    obtain ⟨n, rfl⟩ : ∃ n, fuel = n + 1 := ⟨fuel - 1, by omega⟩
    rw [resolveLayer]
    simp [hd, hfind]
  | step hd hfind _ ih =>
    intro fuel hfuel
    obtain ⟨n, rfl⟩ : ∃ n, fuel = n + 1 := ⟨fuel - 1, by omega⟩
    rw [resolveLayer]
    simp only [if_neg hd, hfind]
    rw [ih n (Nat.lt_of_succ_lt_succ hfuel)]

/-- Witness for C2: requesting `a` whose base image `b` is missing fails
naming `b`, the missing ancestor, not `a`. -/
theorem resolveLayer_missing_witness :
    resolveLayer 3 [⟨"a", "b"⟩] "a" = .error "Layer b not found" ∧
      ("Layer b not found" : String) ≠ "Layer a not found" := by
  refine ⟨?_, by decide⟩
  have hreach : ReachesMissing [⟨"a", "b"⟩] 1 "a" "b" :=
    @ReachesMissing.step [⟨"a", "b"⟩] "a" "b" ⟨"a", "b"⟩ 0 (by decide) (by decide)
      (ReachesMissing.here (by decide) (by decide))
  exact resolveLayer_missing_names_missing_layer hreach 3 (by decide)

/-! ## Overlay filesystem manager (`src/core/core.ts`) -/

/-- The host mount table: the set of active mount points.  Mount state is
observed (`mountpoint -q`), not tracked in the database. -/
structure MountState where
  mounted : List String
  deriving Repr, DecidableEq

/-- `checkMountpoint`: `mountpoint -q <p>` succeeds iff `p` is an active
mount point. -/
def checkMountpoint (st : MountState) (p : String) : Bool :=
  decide (p ∈ st.mounted)

/-- A privileged mount command issued by `mountCrate`. -/
inductive MountCmd
  | overlay (lowerdir upperdir workdir mergePath : String)
  | bind (src target : String)
  | devpts (target : String)
  deriving Repr, DecidableEq

/-- Effect of a successful mount command: the target becomes an active
mount point. -/
def doMount (st : MountState) (p : String) : MountState :=
  ⟨p :: st.mounted⟩

/-- `mountCrate` from `src/core/core.ts`: if the merge path is already an
active mount point, skip everything; otherwise mount the overlay, then
bind-mount `/proc`, `/dev`, `/sys` and mount a fresh `devpts`.  Returns the
new mount table and the list of privileged mount commands performed. -/
def mountCrate (lowerdir upperdir workdir mergePath : String) (st : MountState) :
    MountState × List MountCmd :=
  if checkMountpoint st mergePath then
    (st, [])
  else
    let st1 := doMount st mergePath
    let st2 := doMount st1 (mergePath ++ "/proc")
    let st3 := doMount st2 (mergePath ++ "/dev")
    let st4 := doMount st3 (mergePath ++ "/sys")
    let st5 := doMount st4 (mergePath ++ "/dev/pts")
    (st5, [.overlay lowerdir upperdir workdir mergePath,
           .bind "/proc" (mergePath ++ "/proc"),
           .bind "/dev" (mergePath ++ "/dev"),
           .bind "/sys" (mergePath ++ "/sys"),
           .devpts (mergePath ++ "/dev/pts")])

/-- Whether a command is the privileged overlay mount itself. -/
def isOverlayCmd : MountCmd → Bool
  | .overlay _ _ _ _ => true
  | _ => false

/-- Effect of a successful `umount p`. -/
def doUnmount (st : MountState) (p : String) : MountState :=
  ⟨st.mounted.erase p⟩

/-- The body of the first `try` block of `unmountCrate`: `umount` each path
in order; the oracle `fails` says which `umount` invocations throw.  The
first failure aborts the rest of the block (single shared `catch`).
Returns the state and the list of paths actually attempted. -/
def tryUmountSeq (fails : String → Bool) : MountState → List String → MountState × List String
  | st, [] => (st, [])
  | st, p :: ps =>
    if fails p then
      (st, [p])
    else
      let r := tryUmountSeq fails (doUnmount st p) ps
      (r.1, p :: r.2)

/-- The virtual-filesystem mount points unmounted during teardown, in
source order: `dev/pts`, `proc`, `dev`, `sys`. -/
def vfsMounts (mergePath : String) : List String :=
  [mergePath ++ "/dev/pts", mergePath ++ "/proc",
   mergePath ++ "/dev", mergePath ++ "/sys"]

/-- `unmountCrate` from `src/core/core.ts`: no-op when the merge path is
not mounted; otherwise one `try` block unmounting the four virtual
filesystems in sequence (failures caught and logged), then a second `try`
block unmounting the overlay itself (failure caught and logged).  Returns
the state and the `umount` targets attempted. -/
def unmountCrate (fails : String → Bool) (st : MountState) (mergePath : String) :
    MountState × List String :=
  if checkMountpoint st mergePath = false then
    (st, [])
  else
    let r := tryUmountSeq fails st (vfsMounts mergePath)
    let st2 := if fails mergePath then r.1 else doUnmount r.1 mergePath
    (st2, r.2 ++ [mergePath])

/-- C6. Mount and unmount are idempotent: starting from a state where the
merge path is not mounted, two consecutive `mountCrate` calls perform the
privileged overlay mount exactly once (the second call performs no mount
command at all), and `unmountCrate` on the unmounted root is a no-op that
attempts nothing and reports no error for any behaviour of `umount`. -/
theorem mountCrate_unmountCrate_idempotent
    (lower upper work merge : String) (st : MountState)
    (h : checkMountpoint st merge = false) :
    ((mountCrate lower upper work merge st).2 ++
        (mountCrate lower upper work merge (mountCrate lower upper work merge st).1).2).countP
          isOverlayCmd = 1 ∧
      (mountCrate lower upper work merge (mountCrate lower upper work merge st).1).2 = [] ∧
      (∀ fails, unmountCrate fails st merge = (st, [])) := by
  have hnot : merge ∉ st.mounted := by
    simpa [checkMountpoint] using h
  refine ⟨?_, ?_, ?_⟩
  · simp [mountCrate, checkMountpoint, hnot, doMount, List.countP_cons, isOverlayCmd]
  · simp [mountCrate, checkMountpoint, hnot, doMount]
  · intro fails
    simp [unmountCrate, h]

/-- Witness for C6 at a concrete unmounted state. -/
theorem mountCrate_unmountCrate_idempotent_witness :
    ((mountCrate "lo" "up" "wk" "/m" ⟨[]⟩).2 ++
        (mountCrate "lo" "up" "wk" "/m" (mountCrate "lo" "up" "wk" "/m" ⟨[]⟩).1).2).countP
          isOverlayCmd = 1 ∧
      (mountCrate "lo" "up" "wk" "/m" (mountCrate "lo" "up" "wk" "/m" ⟨[]⟩).1).2 = [] ∧
      (∀ fails, unmountCrate fails ⟨[]⟩ "/m" = (⟨[]⟩, [])) :=
  mountCrate_unmountCrate_idempotent "lo" "up" "wk" "/m" ⟨[]⟩ (by decide)

/-- The fully mounted state for the example root `/m`. -/
def exMounted : MountState := (mountCrate "lo" "up" "wk" "/m" ⟨[]⟩).1

/-- Failure oracle making only `umount /m/dev/pts` fail. -/
def exFails : String → Bool := fun p => p == "/m/dev/pts"

/-- C7 counterexample: when `umount <merge>/dev/pts` fails, the remaining
virtual-filesystem unmounts (`proc`, `dev`, `sys`) are NOT attempted —
the four unmounts share a single `try` block, so they are not independent
as claimed (the overlay unmount, in its own `try`, still happens). -/
theorem unmountCrate_vfs_not_independent :
    (unmountCrate exFails exMounted "/m").2 = ["/m/dev/pts", "/m"] ∧
      "/m/proc" ∉ (unmountCrate exFails exMounted "/m").2 ∧
      "/m/dev" ∉ (unmountCrate exFails exMounted "/m").2 ∧
      "/m/sys" ∉ (unmountCrate exFails exMounted "/m").2 := by
  decide

/-- The prefix of umount targets actually attempted: everything up to and
including the first failing one. -/
def attemptedPrefix (fails : String → Bool) : List String → List String
  | [] => []
  | p :: ps => if fails p then [p] else p :: attemptedPrefix fails ps

theorem tryUmountSeq_attempts (fails : String → Bool) (ps : List String) :
    ∀ st, (tryUmountSeq fails st ps).2 = attemptedPrefix fails ps := by
  induction ps with
  | nil => intro st; rfl
  | cons p ps ih =>
    intro st
    by_cases hp : fails p = true
    · simp [tryUmountSeq, attemptedPrefix, hp]
    · simp [tryUmountSeq, attemptedPrefix, hp, ih]

/-- C7 amended. During teardown of a mounted root the four
virtual-filesystem unmounts are attempted sequentially inside one guarded
block: they are attempted in order `dev/pts`, `proc`, `dev`, `sys` up to
and including the first failure, which skips the remaining
virtual-filesystem unmounts; the failure is non-fatal to the teardown as a
whole, and the overlay itself is always unmounted last.  When no
virtual-filesystem unmount fails, all four are attempted. -/
theorem unmountCrate_teardown_order (fails : String → Bool) (st : MountState)
    (m : String) (h : checkMountpoint st m = true) :
    (unmountCrate fails st m).2 = attemptedPrefix fails (vfsMounts m) ++ [m] ∧
      ((unmountCrate fails st m).2).getLast? = some m ∧
      ((∀ p ∈ vfsMounts m, fails p = false) →
        (unmountCrate fails st m).2 = vfsMounts m ++ [m]) := by
  have hmain : (unmountCrate fails st m).2 = attemptedPrefix fails (vfsMounts m) ++ [m] := by
    simp [unmountCrate, h, tryUmountSeq_attempts]
  refine ⟨hmain, ?_, ?_⟩
  · rw [hmain]; simp
  · intro hok
    rw [hmain]
    have : ∀ ps : List String, (∀ p ∈ ps, fails p = false) → attemptedPrefix fails ps = ps := by
      intro ps
      induction ps with
      | nil => intro _; rfl
      | cons p ps ih =>
        intro hall
        have hp := hall p (List.mem_cons_self p ps)
        simp [attemptedPrefix, hp, ih fun q hq => hall q (List.mem_cons_of_mem p hq)]
    rw [this _ hok]

/-- Witness for C7's amended theorem: no failures, mounted root `/m`. -/
theorem unmountCrate_teardown_order_witness :
    (unmountCrate (fun _ => false) exMounted "/m").2 =
        attemptedPrefix (fun _ => false) (vfsMounts "/m") ++ ["/m"] ∧
      ((unmountCrate (fun _ => false) exMounted "/m").2).getLast? = some "/m" ∧
      ((∀ p ∈ vfsMounts "/m", (fun _ => false) p = false) →
        (unmountCrate (fun _ => false) exMounted "/m").2 = vfsMounts "/m" ++ ["/m"]) :=
  unmountCrate_teardown_order (fun _ => false) exMounted "/m" (by decide)

/-! ## Lowerdir composition (`src/utils/layer.ts` `createAndMountOverlay`,
and the legacy `buildHandler` of the shipper-era `src/handlers/build.ts`) -/

/-- `s.slice(0, -1)`: drop the final character. -/
def sliceDropLast (s : String) : String :=
  ⟨s.data.dropLast⟩

/-- The lowerdir string composed by `createAndMountOverlay`
(`src/unnamed/part_005`): for each resolved layer name, in resolver
order, append `PATHS.crates/<dir> + ":"`, then drop the trailing
separator.  Every layer, the sentinel root layer included, is mapped to
`<crates>/<name>`. -/
def lowerdirOf (crates : String) (lowerlayers : List String) : String :=
  sliceDropLast
    (lowerlayers.foldl (fun acc dir => acc ++ (crates ++ "/" ++ dir) ++ ":") "")

/-- The lowerdir string composed by the legacy shipper-era `buildHandler`
(`src/handlers/build.ts` lines 74-85): identical, except that the
sentinel layer `debian` is first renamed to `debian_rootfs`. -/
def lowerdirOfLegacyBuild (crates : String) (lowerlayers : List String) : String :=
  sliceDropLast
    (lowerlayers.foldl
      (fun acc dir =>
        acc ++ (crates ++ "/" ++ (if dir = "debian" then "debian_rootfs" else dir)) ++ ":")
      "")

theorem lowerdir_foldl_data (crates acc : String) (ds : List String) :
    (ds.foldl (fun a dir => a ++ (crates ++ "/" ++ dir) ++ ":") acc).data =
      acc.data ++ (ds.map fun dir => (crates ++ "/" ++ dir).data ++ [':']).flatten := by
  induction ds generalizing acc with
  | nil => simp
  | cons d ds ih =>
    simp only [List.foldl_cons, List.map_cons, List.flatten_cons]
    rw [ih]
    simp [String.data_append, List.append_assoc]

/-- Unfolding equation: composing over `d :: ds` with `ds` nonempty
prepends `<crates>/<d>` and the `":"` separator. -/
theorem lowerdirOf_cons (crates d : String) (ds : List String) (hds : ds ≠ []) :
    lowerdirOf crates (d :: ds) =
      crates ++ "/" ++ d ++ ":" ++ lowerdirOf crates ds := by
  apply String.ext
  simp only [lowerdirOf, sliceDropLast, String.data_append]
  rw [lowerdir_foldl_data, lowerdir_foldl_data]
  have hjoin : ((ds.map fun dir => (crates ++ "/" ++ dir).data ++ [':']).flatten) ≠ [] := by
    cases ds with
    | nil => exact absurd rfl hds
    | cons e es => simp
  simp only [List.map_cons, List.flatten_cons, List.nil_append]
  have hcf : [':'] ++ (ds.map fun dir => (crates ++ "/" ++ dir).data ++ [':']).flatten ≠ [] := by
    simp
  rw [List.append_assoc]
  rw [List.dropLast_append_of_ne_nil ((crates ++ "/" ++ d).data) hcf]
  rw [List.dropLast_append_of_ne_nil [':'] hjoin]
  have hsl : (":" : String).data = [':'] := rfl
  simp [String.data_append, hsl, List.append_assoc]

/-- C8 counterexample: in the current composition (`createAndMountOverlay`),
the sentinel root layer `debian` maps to the path derived from its logical
name, `<crates>/debian`, NOT to a bootstrap path distinct from it; the
claimed distinct mapping exists only in the legacy shipper-era
`buildHandler`, which maps it to `<crates>/debian_rootfs`. -/
theorem lowerdirOf_sentinel_not_distinct :
    lowerdirOf "/var/lib/keelan/crates" ["debian"] = "/var/lib/keelan/crates" ++ "/" ++ "debian" ∧
      lowerdirOfLegacyBuild "/var/lib/keelan/crates" ["debian"] =
        "/var/lib/keelan/crates" ++ "/" ++ "debian_rootfs" := by
  constructor <;> rfl

/-- C8 amended. The composed lowerdir string maps every layer name,
the sentinel root layer included, to its on-disk crate path
`<crates>/<name>`, joined with `":"` (the POSIX path-list separator)
preserving resolver order; only the legacy shipper-era `buildHandler`
mapped the sentinel to the distinct bootstrap path `debian_rootfs`. -/
theorem lowerdirOf_joins_in_order (crates : String) :
    lowerdirOf crates [] = "" ∧
      (∀ d, lowerdirOf crates [d] = crates ++ "/" ++ d) ∧
      (∀ d ds, ds ≠ [] → lowerdirOf crates (d :: ds) =
        crates ++ "/" ++ d ++ ":" ++ lowerdirOf crates ds) ∧
      (∀ ds, lowerdirOfLegacyBuild crates ds =
        lowerdirOf crates (ds.map fun d => if d = "debian" then "debian_rootfs" else d)) := by
  refine ⟨rfl, ?_, fun d ds hds => lowerdirOf_cons crates d ds hds, ?_⟩
  · intro d
    apply String.ext
    simp only [lowerdirOf, sliceDropLast]
    rw [lowerdir_foldl_data]
    simp only [List.map_cons, List.map_nil, List.flatten_cons, List.flatten_nil,
      List.append_nil, List.nil_append]
    rw [List.dropLast_concat]
  · intro ds
    simp only [lowerdirOf, lowerdirOfLegacyBuild, List.foldl_map]

/-- Witness for C8's amended theorem at a two-layer chain ending in the
sentinel. -/
theorem lowerdirOf_joins_in_order_witness :
    lowerdirOf "/c" ["app", "debian"] = "/c" ++ "/" ++ "app" ++ ":" ++ lowerdirOf "/c" ["debian"] ∧
      lowerdirOfLegacyBuild "/c" ["debian"] =
        lowerdirOf "/c" (["debian"].map fun d => if d = "debian" then "debian_rootfs" else d) := by
  have h := lowerdirOf_joins_in_order "/c"
  exact ⟨h.2.2.1 "app" ["debian"] (by decide), h.2.2.2 ["debian"]⟩

/-! ## Daemon control protocol and process supervision
(`handleSocketData`, `monitorAllShips`, `isProcessRunning` of the monitor
daemon). -/

/-- Outcome of a `process.kill(pid, sig)` call: success, or a thrown
error identified by its `code` (`"ESRCH"`, `"EPERM"`, ...). -/
inductive KillResult
  | ok
  | err (code : String)
  deriving Repr, DecidableEq

/-- Signals the daemon sends: `sig0` is the signal-0 existence probe. -/
inductive Sig
  | sig0
  | sigterm
  | sigkill
  deriving Repr, DecidableEq

/-- The OS as observed by the daemon: the outcome of signalling each pid,
and the pid handed back by `spawn` (`child.pid`, possibly absent). -/
structure OsModel where
  kill : Nat → Sig → KillResult
  spawnPid : Option Nat

/-- `isProcessRunning` (monitor daemon): `process.kill(pid, 0)` inside
`try`; on error, report alive unless the code is `ESRCH`. -/
def isProcessRunning (os : OsModel) (pid : Nat) : Bool :=
  match os.kill pid .sig0 with
  | .ok => true
  | .err c => c != "ESRCH"

/-- A row of the `keelan_ships` table. -/
structure ShipRow where
  name : String
  imageId : Nat
  status : String
  startedAt : Option String
  stoppedAt : Option String
  exitCode : Option Int
  processId : Option Nat
  deriving Repr, DecidableEq

/-- `db.select().from(keelanShips).where(eq(name, n)).limit(1)`. -/
def selectShip (db : List ShipRow) (n : String) : Option ShipRow :=
  db.find? (fun s => s.name == n)

/-- `db.update(keelanShips).set(...).where(eq(name, n))`. -/
def updateShipsWhereName (db : List ShipRow) (n : String) (f : ShipRow → ShipRow) :
    List ShipRow :=
  db.map (fun s => if s.name == n then f s else s)

/-- The `set` of the already-stopped / ESRCH stop updates: status and
`stoppedAt` only. -/
def stopReconcileRow (now : String) (s : ShipRow) : ShipRow :=
  { s with status := "stopped", stoppedAt := some now }

/-- The `set` of the successful-stop update: status, `stoppedAt` and
`exitCode: null`. -/
def stopSuccessRow (now : String) (s : ShipRow) : ShipRow :=
  { s with status := "stopped", stoppedAt := some now, exitCode := none }

/-- The `set` of the supervisor `close` handler. -/
def closeHandlerRow (now : String) (code : Option Int) (s : ShipRow) : ShipRow :=
  { s with status := "stopped", stoppedAt := some now, exitCode := code }

/-- The `set` of the supervisor `error` handler. -/
def errorHandlerRow (now : String) (code : Int) (s : ShipRow) : ShipRow :=
  { s with status := "error", stoppedAt := some now, exitCode := some code }

/-- The row `monitorAllShips` rewrites for a running ship whose process
has died. -/
def monitorDeadRow (now : String) (s : ShipRow) : ShipRow :=
  { s with status := "stopped", stoppedAt := some now, exitCode := none }

/-- One ship's treatment in the reconciliation pass `monitorAllShips`:
only ships with `status = running` and a recorded pid are probed; a dead
process flips the row to stopped. -/
def monitorShipStep (os : OsModel) (now : String) (s : ShipRow) : ShipRow :=
  if s.status = "running" then
    match s.processId with
    | some pid => if isProcessRunning os pid then s else monitorDeadRow now s
    | none => s
  else s

/-- `monitorAllShips`: reconcile every persisted running ship against OS
process liveness. -/
def monitorAllShips (os : OsModel) (now : String) (db : List ShipRow) : List ShipRow :=
  db.map (monitorShipStep os now)

/-- A JSON reply written to the control socket. -/
structure Reply where
  status : String
  message : Option String
  pid : Option Nat
  deriving Repr, DecidableEq

def okReply (msg : String) : Reply := ⟨"success", some msg, none⟩

def errReply (msg : String) : Reply := ⟨"error", some msg, none⟩

/-- A parsed control message.  The handler reads only the fields of the
branch selected by `type`. -/
structure Msg where
  type : String
  shipID : String
  shipName : String
  command : String
  logDir : String
  imageId : Nat
  force : Bool
  deriving Repr, DecidableEq

/-- Result of handling one socket message: the ships table, the replies
written to the socket, and the real signals delivered
(the signal-0 probes send no signal and are not recorded). -/
structure HandlerResult where
  ships : List ShipRow
  replies : List Reply
  signals : List (Nat × Sig)
  deriving Repr, DecidableEq

/-- The `try` block of the stop branch: SIGTERM, grace wait, liveness
re-check, optional SIGKILL, status update; the `catch` turns `ESRCH` into
the already-stopped success and anything else into an error reply. -/
def stopTryBlock (os : OsModel) (now : String) (db : List ShipRow)
    (shipName : String) (pid : Nat) (force : Bool) : HandlerResult :=
  match os.kill pid .sigterm with
  | .err c =>
    if c = "ESRCH" then
      ⟨updateShipsWhereName db shipName (stopReconcileRow now),
       [okReply "Ship was already stopped"], [(pid, .sigterm)]⟩
    else
      ⟨db, [errReply ("Failed to stop ship: " ++ c)], [(pid, .sigterm)]⟩
  | .ok =>
    if isProcessRunning os pid then
      if force then
        match os.kill pid .sigkill with
        | .err c =>
          if c = "ESRCH" then
            ⟨updateShipsWhereName db shipName (stopReconcileRow now),
             [okReply "Ship was already stopped"], [(pid, .sigterm), (pid, .sigkill)]⟩
          else
            ⟨db, [errReply ("Failed to stop ship: " ++ c)], [(pid, .sigterm), (pid, .sigkill)]⟩
        | .ok =>
          ⟨updateShipsWhereName db shipName (stopSuccessRow now),
           [okReply "Ship stopped successfully"], [(pid, .sigterm), (pid, .sigkill)]⟩
      else
        ⟨db, [errReply "Ship did not stop gracefully. Use --force to kill it."],
         [(pid, .sigterm)]⟩
    else
      ⟨updateShipsWhereName db shipName (stopSuccessRow now),
       [okReply "Ship stopped successfully"], [(pid, .sigterm)]⟩

/-- The stop branch of `handleSocketData`: look the ship up; if the
recorded pid is null or the status is not `running`, reconcile to stopped
with a success reply only when a non-null recorded pid is already dead,
and reply with an error otherwise; else go through the signalling
`try` block. -/
def stopBranch (os : OsModel) (now : String) (db : List ShipRow)
    (shipName : String) (force : Bool) : HandlerResult :=
  match selectShip db shipName with
  | none => ⟨db, [errReply "Ship not found"], []⟩
  | some ship =>
    match ship.processId with
    | none => ⟨db, [errReply "Ship is not running"], []⟩
    | some pid =>
      if ship.status = "running" then
        stopTryBlock os now db shipName pid force
      else
        if isProcessRunning os pid then
          ⟨db, [errReply "Ship is not running"], []⟩
        else
          ⟨updateShipsWhereName db shipName (stopReconcileRow now),
           [okReply "Ship was already stopped, updated status"], []⟩

/-- The deploy branch: spawn detached, insert a new ship row with
`status = running` and `processId = child.pid` (possibly null), reply
success with the pid. -/
def deployBranch (os : OsModel) (now : String) (db : List ShipRow)
    (shipID : String) (imageId : Nat) : HandlerResult :=
  ⟨db ++ [⟨shipID, imageId, "running", some now, none, none, os.spawnPid⟩],
   [⟨"success", none, os.spawnPid⟩], []⟩

/-- The start branch: spawn detached, update the existing ship row to
`status = running` with the new pid, reply success. -/
def startBranch (os : OsModel) (now : String) (db : List ShipRow)
    (shipName : String) : HandlerResult :=
  ⟨updateShipsWhereName db shipName (fun s =>
      { s with processId := os.spawnPid, status := "running",
               startedAt := some now, stoppedAt := none, exitCode := none }),
   [⟨"success", none, os.spawnPid⟩], []⟩

/-- The error message of the outer `catch` for an unparsable payload. -/
def jsonParseErrorMsg : String := "Unexpected token in JSON"

/-- `handleSocketData` of the monitor daemon: parse the payload (`none`
models a malformed payload, whose parse error is caught and turned into
an error reply), then dispatch on the `type` tag through the
`if / else if` chain; a tag that is none of `deploy`, `start`, `stop`
falls through every branch and writes nothing. -/
def handleSocketData (os : OsModel) (now : String) (db : List ShipRow) :
    Option Msg → HandlerResult
  | none => ⟨db, [errReply jsonParseErrorMsg], []⟩
  | some m =>
    if m.type = "deploy" then
      deployBranch os now db m.shipID m.imageId
    else if m.type = "start" then
      startBranch os now db m.shipName
    else if m.type = "stop" then
      stopBranch os now db m.shipName m.force
    else
      ⟨db, [], []⟩

/-! ### Helper lemmas about the stop branch -/

theorem stopBranch_null_pid {os : OsModel} {now : String} {db : List ShipRow}
    {n : String} {force : Bool} {ship : ShipRow}
    (hfound : selectShip db n = some ship) (hpid : ship.processId = none) :
    stopBranch os now db n force = ⟨db, [errReply "Ship is not running"], []⟩ := by
  unfold stopBranch
  rw [hfound]
  simp [hpid]

theorem stopBranch_dead_reconcile {os : OsModel} {now : String} {db : List ShipRow}
    {n : String} {force : Bool} {ship : ShipRow} {pid : Nat}
    (hfound : selectShip db n = some ship) (hpid : ship.processId = some pid)
    (hst : ship.status ≠ "running") (hdead : isProcessRunning os pid = false) :
    stopBranch os now db n force =
      ⟨updateShipsWhereName db n (stopReconcileRow now),
       [okReply "Ship was already stopped, updated status"], []⟩ := by
  unfold stopBranch
  rw [hfound]
  simp [hpid, hst, hdead]

theorem stopBranch_alive_not_running {os : OsModel} {now : String} {db : List ShipRow}
    {n : String} {force : Bool} {ship : ShipRow} {pid : Nat}
    (hfound : selectShip db n = some ship) (hpid : ship.processId = some pid)
    (hst : ship.status ≠ "running") (halive : isProcessRunning os pid = true) :
    stopBranch os now db n force = ⟨db, [errReply "Ship is not running"], []⟩ := by
  unfold stopBranch
  rw [hfound]
  simp [hpid, hst, halive]

theorem stopTryBlock_one_reply (os : OsModel) (now : String) (db : List ShipRow)
    (n : String) (pid : Nat) (force : Bool) :
    ∃ r, (stopTryBlock os now db n pid force).replies = [r] ∧
      (r.status = "success" ∨ r.status = "error") := by
  unfold stopTryBlock
  cases os.kill pid .sigterm with
  | err c =>
    by_cases hc : c = "ESRCH"
    · exact ⟨okReply "Ship was already stopped", by simp [hc], Or.inl rfl⟩
    · exact ⟨errReply ("Failed to stop ship: " ++ c), by simp [hc], Or.inr rfl⟩
  | ok =>
    by_cases hr : isProcessRunning os pid
    · by_cases hf : force = true
      · cases os.kill pid .sigkill with
        | err c =>
          by_cases hc : c = "ESRCH"
          · exact ⟨okReply "Ship was already stopped", by simp [hr, hf, hc], Or.inl rfl⟩
          · exact ⟨errReply ("Failed to stop ship: " ++ c), by simp [hr, hf, hc], Or.inr rfl⟩
        | ok => exact ⟨okReply "Ship stopped successfully", by simp [hr, hf], Or.inl rfl⟩
      · exact ⟨errReply "Ship did not stop gracefully. Use --force to kill it.",
          by simp [hr, hf], Or.inr rfl⟩
    · exact ⟨okReply "Ship stopped successfully", by simp [hr], Or.inl rfl⟩

theorem stopBranch_one_reply (os : OsModel) (now : String) (db : List ShipRow)
    (n : String) (force : Bool) :
    ∃ r, (stopBranch os now db n force).replies = [r] ∧
      (r.status = "success" ∨ r.status = "error") := by
  unfold stopBranch
  cases hsel : selectShip db n with
  | none => exact ⟨errReply "Ship not found", rfl, Or.inr rfl⟩
  | some ship =>
    cases hpid : ship.processId with
    | none => exact ⟨errReply "Ship is not running", by simp [hpid], Or.inr rfl⟩
    | some pid =>
      by_cases hst : ship.status = "running"
      · simpa [hpid, hst] using stopTryBlock_one_reply os now db n pid force
      · by_cases hr : isProcessRunning os pid
        · exact ⟨errReply "Ship is not running", by simp [hpid, hst, hr], Or.inr rfl⟩
        · exact ⟨okReply "Ship was already stopped, updated status",
            by simp [hpid, hst, hr], Or.inl rfl⟩

/-! ### C4 -/

/-- Ship fixtures for the counterexamples and witnesses. -/
def exStoppedShipNoPid : ShipRow := ⟨"s", 1, "stopped", none, none, none, none⟩

def exStoppedShipDeadPid : ShipRow := ⟨"d", 1, "stopped", none, none, none, some 42⟩

def exRunningShip : ShipRow := ⟨"r", 1, "running", some "t0", none, none, some 42⟩

/-- OS in which every signal succeeds. -/
def exOsAllOk : OsModel := ⟨fun _ _ => .ok, some 7⟩

/-- OS in which every signal fails with `ESRCH` (no such process). -/
def exOsDead : OsModel := ⟨fun _ _ => .err "ESRCH", none⟩

/-- OS in which every signal fails with `EPERM` (not permitted). -/
def exOsEperm : OsModel := ⟨fun _ _ => .err "EPERM", none⟩

/-- C4 counterexample: a stop request naming an existing ship that is not
running but has no recorded pid is answered with an *error* reply
(`Ship is not running`) and no reconciliation, not with the claimed
success reply. -/
theorem stop_not_running_error_counterexample :
    (stopBranch exOsAllOk "t1" [exStoppedShipNoPid] "s" false).replies =
        [errReply "Ship is not running"] ∧
      (stopBranch exOsAllOk "t1" [exStoppedShipNoPid] "s" false).ships =
        [exStoppedShipNoPid] ∧
      (stopBranch exOsAllOk "t1" [exStoppedShipNoPid] "s" false).signals = [] := by
  refine ⟨?_, ?_, ?_⟩ <;> rfl

/-- C4 amended. A stop request naming an existing ship reconciles the
status to stopped and replies success without sending any signal exactly
when the recorded pid is non-null, the status is not `running`, and the
pid is already dead; a not-running ship with a null recorded pid, or one
whose process is still alive, gets an error reply (`Ship is not
running`), no signal, and no state change. -/
theorem stop_reconciles_only_dead_pid {os : OsModel} {now : String}
    {db : List ShipRow} {n : String} {force : Bool} {ship : ShipRow}
    (hfound : selectShip db n = some ship) :
    (∀ pid, ship.processId = some pid → ship.status ≠ "running" →
      isProcessRunning os pid = false →
      stopBranch os now db n force =
        ⟨updateShipsWhereName db n (stopReconcileRow now),
         [okReply "Ship was already stopped, updated status"], []⟩) ∧
    (ship.processId = none →
      stopBranch os now db n force = ⟨db, [errReply "Ship is not running"], []⟩) ∧
    (∀ pid, ship.processId = some pid → ship.status ≠ "running" →
      isProcessRunning os pid = true →
      stopBranch os now db n force = ⟨db, [errReply "Ship is not running"], []⟩) :=
  ⟨fun _ hpid hst hdead => stopBranch_dead_reconcile hfound hpid hst hdead,
   fun hpid => stopBranch_null_pid hfound hpid,
   fun _ hpid hst halive => stopBranch_alive_not_running hfound hpid hst halive⟩

/-- Witness for C4's amended theorem: a stopped ship with a dead recorded
pid is reconciled with a success reply and no signal. -/
theorem stop_reconciles_only_dead_pid_witness :
    stopBranch exOsDead "t1" [exStoppedShipDeadPid] "d" false =
      ⟨updateShipsWhereName [exStoppedShipDeadPid] "d" (stopReconcileRow "t1"),
       [okReply "Ship was already stopped, updated status"], []⟩ :=
  (stop_reconciles_only_dead_pid (by rfl)).1 42 rfl (by decide) (by decide)

/-! ### C5 -/

/-- C5 counterexample: after the reconciliation pass flips a running ship
with a dead process to stopped, the row retains its non-null `processId`,
so the invariant `processId ≠ null ↔ status = running` is violated. -/
theorem processId_iff_running_counterexample :
    (monitorAllShips exOsDead "t1" [exRunningShip]).all
        (fun s => decide ((s.processId ≠ none) ↔ s.status = "running")) = false ∧
      monitorAllShips exOsDead "t1" [exRunningShip] =
        [⟨"r", 1, "stopped", some "t0", some "t1", none, some 42⟩] := by
  exact ⟨by decide, by rfl⟩

/-- C5 amended. Deploy and start set `status = running` with `processId`
equal to the pid returned by `spawn` (null when the spawn yields none);
every transition out of `running` — stop in both its update flavours, the
supervisor close and error handlers, and the reconciliation pass — sets
the status (and `stoppedAt`) but leaves `processId` untouched, so a
stopped ship keeps its last recorded pid and the biconditional invariant
does not hold. -/
theorem ship_mutations_keep_processId (os : OsModel) (now : String) :
    (∀ db id img, (deployBranch os now db id img).ships =
      db ++ [⟨id, img, "running", some now, none, none, os.spawnPid⟩]) ∧
    (∀ db n, (startBranch os now db n).ships = updateShipsWhereName db n (fun s =>
      { s with processId := os.spawnPid, status := "running",
               startedAt := some now, stoppedAt := none, exitCode := none })) ∧
    (∀ s, (monitorShipStep os now s).processId = s.processId) ∧
    (∀ s, (stopReconcileRow now s).processId = s.processId ∧
      (stopReconcileRow now s).status = "stopped") ∧
    (∀ s, (stopSuccessRow now s).processId = s.processId ∧
      (stopSuccessRow now s).status = "stopped") ∧
    (∀ s c, (closeHandlerRow now c s).processId = s.processId ∧
      (closeHandlerRow now c s).status = "stopped") ∧
    (∀ s c, (errorHandlerRow now c s).processId = s.processId ∧
      (errorHandlerRow now c s).status = "error") := by
  refine ⟨fun _ _ _ => rfl, fun _ _ => rfl, ?_, fun _ => ⟨rfl, rfl⟩,
    fun _ => ⟨rfl, rfl⟩, fun _ _ => ⟨rfl, rfl⟩, fun _ _ => ⟨rfl, rfl⟩⟩
  intro s
  unfold monitorShipStep
  by_cases hst : s.status = "running"
  · simp only [hst, if_true]
    cases hp : s.processId with
    | none => simp [hp]
    | some pid =>
      by_cases hr : isProcessRunning os pid <;> simp [hr, monitorDeadRow, hp]
  · simp [hst]

/-! ### C9 -/

/-- A syntactically valid message whose tag is none of the handled ones. -/
def exUnknownMsg : Msg := ⟨"status", "", "", "", "", 0, false⟩

/-- C9 counterexample: a valid message with an unknown `type` tag falls
through every branch of `handleSocketData` and produces NO reply at all —
it is silently ignored, not answered with a structured error. -/
theorem unknown_tag_silently_ignored_counterexample :
    (handleSocketData exOsAllOk "t1" [] (some exUnknownMsg)).replies = [] := by
  rfl

/-- C9 amended. Every reply `handleSocketData` writes has status
`success` or `error`; a malformed payload is answered with exactly one
error reply (the parse error is caught, the handler does not crash); a
`deploy`, `start` or `stop` message is answered with exactly one reply;
but a valid message with an unknown tag produces no reply at all. -/
theorem protocol_reply_discipline (os : OsModel) (now : String)
    (db : List ShipRow) (x : Option Msg) :
    (∀ r ∈ (handleSocketData os now db x).replies,
      r.status = "success" ∨ r.status = "error") ∧
    (x = none →
      (handleSocketData os now db x).replies = [errReply jsonParseErrorMsg]) ∧
    (∀ m, x = some m → (m.type = "deploy" ∨ m.type = "start" ∨ m.type = "stop") →
      (handleSocketData os now db x).replies.length = 1) ∧
    (∀ m, x = some m → m.type ≠ "deploy" → m.type ≠ "start" → m.type ≠ "stop" →
      (handleSocketData os now db x).replies = []) := by
  refine ⟨?_, ?_, ?_, ?_⟩
  · intro r hr
    cases x with
    | none => simp [handleSocketData, errReply] at hr; simp [hr]
    | some m =>
      by_cases hd : m.type = "deploy"
      · simp [handleSocketData, hd, deployBranch] at hr
        simp [hr]
      · by_cases hs : m.type = "start"
        · simp [handleSocketData, hd, hs, startBranch] at hr
          simp [hr]
        · by_cases hp : m.type = "stop"
          · obtain ⟨r', hr', hstat⟩ := stopBranch_one_reply os now db m.shipName m.force
            simp [handleSocketData, hd, hs, hp, hr'] at hr
            simpa [hr] using hstat
          · simp [handleSocketData, hd, hs, hp] at hr
  · rintro rfl
    rfl
  · rintro m rfl htag
    rcases htag with hd | hs | hp
    · simp [handleSocketData, hd, deployBranch]
    · by_cases hd : m.type = "deploy"
      · simp [handleSocketData, hd, deployBranch]
      · simp [handleSocketData, hd, hs, startBranch]
    · by_cases hd : m.type = "deploy"
      · simp [handleSocketData, hd, deployBranch]
      · by_cases hs : m.type = "start"
        · simp [handleSocketData, hd, hs, startBranch]
        · obtain ⟨r', hr', _⟩ := stopBranch_one_reply os now db m.shipName m.force
          simp [handleSocketData, hd, hs, hp, hr']
  · rintro m rfl hd hs hp
    simp [handleSocketData, hd, hs, hp]

/-- Witness for C9's amended theorem on a malformed payload. -/
theorem protocol_reply_discipline_witness :
    (handleSocketData exOsAllOk "t1" [] none).replies = [errReply jsonParseErrorMsg] :=
  (protocol_reply_discipline exOsAllOk "t1" [] none).2.1 rfl

/-! ### C10 -/

/-- C10. The liveness probe reports a process dead exactly when signal 0
fails with `ESRCH`; any other failure — `EPERM` included — reports it
alive, so the reconciliation pass leaves such a ship untouched and the
stop branch treats it as still running (a not-running-status ship with an
unsignallable pid gets the alive-path error reply, not the dead-pid
reconciliation). -/
theorem isProcessRunning_dead_iff_esrch (os : OsModel) (pid : Nat) :
    (isProcessRunning os pid = false ↔ os.kill pid .sig0 = .err "ESRCH") ∧
    (os.kill pid .sig0 = .err "EPERM" → isProcessRunning os pid = true) ∧
    (∀ now s, os.kill pid .sig0 = .err "EPERM" → s.processId = some pid →
      monitorShipStep os now s = s) ∧
    (∀ now db n force ship, selectShip db n = some ship →
      ship.processId = some pid → ship.status ≠ "running" →
      os.kill pid .sig0 = .err "EPERM" →
      stopBranch os now db n force = ⟨db, [errReply "Ship is not running"], []⟩) := by
  have hiff : isProcessRunning os pid = false ↔ os.kill pid .sig0 = .err "ESRCH" := by
    unfold isProcessRunning
    cases hk : os.kill pid .sig0 with
    | ok => simp
    | err c => simp [bne_eq_false_iff_eq]
  have halive : os.kill pid .sig0 = .err "EPERM" → isProcessRunning os pid = true := by
    intro hk
    unfold isProcessRunning
    rw [hk]
    decide
  refine ⟨hiff, halive, ?_, ?_⟩
  · intro now s hk hpid
    unfold monitorShipStep
    by_cases hst : s.status = "running"
    · simp [hst, hpid, halive hk]
    · simp [hst]
  · intro now db n force ship hfound hpid hst hk
    exact stopBranch_alive_not_running hfound hpid hst (halive hk)

/-- Witness for C10 on the everything-is-EPERM OS. -/
theorem isProcessRunning_dead_iff_esrch_witness :
    isProcessRunning exOsEperm 42 = true ∧
      monitorShipStep exOsEperm "t1" exRunningShip = exRunningShip ∧
      stopBranch exOsEperm "t1" [exStoppedShipDeadPid] "d" false =
        ⟨[exStoppedShipDeadPid], [errReply "Ship is not running"], []⟩ := by
  have h := isProcessRunning_dead_iff_esrch exOsEperm 42
  exact ⟨h.2.1 rfl, h.2.2.1 "t1" exRunningShip rfl rfl,
    h.2.2.2 "t1" [exStoppedShipDeadPid] "d" false exStoppedShipDeadPid rfl rfl
      (by decide) rfl⟩

/-! ## Build pipeline failure cleanup (`buildHandler` of
`src/handlers/build.ts`, current revision in `src/unnamed/part_001`;
`removeCrateHandler` of `src/handlers/remove.js` in
`src/unnamed/part_000`; `removeCrate` / `removeGzipCrate` of
`src/core/core.ts`). -/

/-- The persisted and filesystem state the build pipeline touches:
`keelan_files` rows (build descriptors, by name), `keelan_crate` rows
(crates, by name), filesystem entries and the mount table. -/
structure PipeState where
  files : List String
  crates : List String
  paths : List String
  mounts : List String
  deriving Repr, DecidableEq

/-- `checkName`: does a `keelan_files` row with this name exist? -/
def checkName (st : PipeState) (n : String) : Bool :=
  decide (n ∈ st.files)

/-- `sudo mkdir -p <p>`: idempotent directory creation. -/
def createDirectory (st : PipeState) (p : String) : PipeState :=
  if p ∈ st.paths then st else { st with paths := p :: st.paths }

/-- Is `q` the path `p` itself or inside the tree rooted at `p`? -/
def underPath (p q : String) : Bool :=
  q == p || (p ++ "/").isPrefixOf q

/-- `sudo rm -rf <p>`: remove the path and its whole subtree. -/
def rmRf (st : PipeState) (p : String) : PipeState :=
  { st with paths := st.paths.filter (fun q => !underPath p q) }

/-- `createAndMountOverlay` (`src/utils/layer.ts`): create the
upper/work/merge directories, compose the lowerdir from the resolved
layers (shared `lowerdirOf`), and `mountCrate` the overlay. -/
def createAndMountOverlay (crates upper : String) (lowerlayers : List String)
    (work merge : String) (st : PipeState) : PipeState :=
  let st1 := createDirectory st upper
  let st2 := createDirectory st1 work
  let st3 := createDirectory st2 merge
  let ms := mountCrate (lowerdirOf crates lowerlayers) upper work merge ⟨st3.mounts⟩
  { st3 with mounts := ms.1.mounted }

/-- `removeCrate` (`src/core/core.ts`): unmount the merge path, then
`rm -rf` the crate, work and merge directories.  `umount` failures are
not modelled here (cleanup is called with `force`). -/
def removeCrateOp (cratesBase n : String) (st : PipeState) : PipeState :=
  let cratePath := cratesBase ++ "/" ++ n
  let ms := unmountCrate (fun _ => false) ⟨st.mounts⟩ (cratePath ++ "_merge")
  let st1 := { st with mounts := ms.1.mounted }
  rmRf (rmRf (rmRf st1 cratePath) (cratePath ++ "_work")) (cratePath ++ "_merge")

/-- `removeGzipCrate` (`src/core/core.ts`): delete the compressed archive
when a descriptor row with the name still exists. -/
def removeGzipCrate (cratesBase n : String) (st : PipeState) : PipeState :=
  if checkName st n then rmRf st (cratesBase ++ "/" ++ n ++ ".tar.gz") else st

/-- `removeCrateHandler` (`src/handlers/remove.js`): skip when no
descriptor row exists; otherwise remove the directories and the archive,
then delete the `keelan_files` and `keelan_crate` rows with the name. -/
def removeCrateHandler (cratesBase n : String) (st : PipeState) : PipeState :=
  if checkName st n = false then st
  else
    let st1 := removeCrateOp cratesBase n st
    let st2 := removeGzipCrate cratesBase n st1
    { st2 with files := st2.files.filter (fun m => !(m == n)),
               crates := st2.crates.filter (fun m => !(m == n)) }

/-- `writeCrateFile` (`src/core/core.ts`): insert a `keelan_files` row. -/
def writeCrateFile (n : String) (st : PipeState) : PipeState :=
  { st with files := st.files ++ [n] }

/-- `writeCrate` (`src/core/core.ts`): insert a `keelan_crate` row. -/
def writeCrate (n : String) (st : PipeState) : PipeState :=
  { st with crates := st.crates ++ [n] }

/-- Outcome of the synchronous build command: `process.exit` with a code,
or normal completion. -/
inductive BuildOutcome
  | exited (code : Nat) (st : PipeState)
  | finished (st : PipeState)
  deriving Repr, DecidableEq

/-- `buildHandler` (current revision): overwrite a stale crate directory,
create-and-mount the overlay, persist the build descriptor *before* the
steps, run the steps (the oracle `stepFails i` says whether step `i`
fails with a non-zero exit or spawn error — both reject and land in the
`catch`), and on any failure run `removeCrateHandler` with `force` and
`process.exit(1)`; on success compress, record the crate row and unmount.
Step side effects land inside the tracked upper/merge directories and
are not modelled individually. -/
def buildHandler (cratesBase name : String) (lowerlayers : List String)
    (nSteps : Nat) (stepFails : Nat → Bool) (st : PipeState) : BuildOutcome :=
  let st0 := if checkName st name then removeCrateOp cratesBase name st else st
  let upper := cratesBase ++ "/" ++ name
  let st1 := createAndMountOverlay cratesBase upper lowerlayers
    (upper ++ "_work") (upper ++ "_merge") st0
  let st2 := writeCrateFile name st1
  if (List.range nSteps).any stepFails then
    .exited 1 (removeCrateHandler cratesBase name st2)
  else
    let archive := cratesBase ++ "/" ++ name ++ ".tar.gz"
    let st3 := { st2 with paths := archive :: st2.paths }
    let st4 := writeCrate name st3
    let ms := unmountCrate (fun _ => false) ⟨st4.mounts⟩ (upper ++ "_merge")
    .finished { st4 with mounts := ms.1.mounted }

theorem rmRf_not_mem {st : PipeState} {p q : String} (h : underPath p q = true) :
    q ∉ (rmRf st p).paths := by
  intro hmem
  simp only [rmRf, List.mem_filter] at hmem
  rw [h] at hmem
  exact absurd hmem.2 (by decide)

theorem rmRf_subset {st : PipeState} {p q : String} (h : q ∈ (rmRf st p).paths) :
    q ∈ st.paths := by
  simp only [rmRf, List.mem_filter] at h
  exact h.1

theorem underPath_self (p : String) : underPath p p = true := by
  simp [underPath]

theorem removeGzipCrate_subset {cratesBase n q : String} {t : PipeState}
    (h : q ∈ (removeGzipCrate cratesBase n t).paths) : q ∈ t.paths := by
  unfold removeGzipCrate at h
  by_cases hc : checkName t n
  · rw [if_pos hc] at h
    exact rmRf_subset h
  · rwa [if_neg hc] at h

/-- After `removeCrateHandler` runs on a state that still has the
descriptor row, neither database row nor any of the three crate
directories survives. -/
theorem removeCrateHandler_cleans (cratesBase n : String) (t : PipeState)
    (h : checkName t n = true) :
    n ∉ (removeCrateHandler cratesBase n t).files ∧
      n ∉ (removeCrateHandler cratesBase n t).crates ∧
      (cratesBase ++ "/" ++ n) ∉ (removeCrateHandler cratesBase n t).paths ∧
      (cratesBase ++ "/" ++ n ++ "_work") ∉ (removeCrateHandler cratesBase n t).paths ∧
      (cratesBase ++ "/" ++ n ++ "_merge") ∉ (removeCrateHandler cratesBase n t).paths := by
  unfold removeCrateHandler
  rw [h]
  simp only [Bool.true_eq_false, if_false]
  refine ⟨?_, ?_, ?_, ?_, ?_⟩
  · simp [List.mem_filter]
  · simp [List.mem_filter]
  · intro hmem
    have h2 := removeGzipCrate_subset hmem
    unfold removeCrateOp at h2
    have h3 := rmRf_subset (rmRf_subset h2)
    exact rmRf_not_mem (underPath_self _) h3
  · intro hmem
    have h2 := removeGzipCrate_subset hmem
    unfold removeCrateOp at h2
    have h3 := rmRf_subset h2
    exact rmRf_not_mem (underPath_self _) h3
  · intro hmem
    have h2 := removeGzipCrate_subset hmem
    unfold removeCrateOp at h2
    exact rmRf_not_mem (underPath_self _) h2

/-- C3. Whenever some build step fails, the pipeline exits with code 1
and the final state has no build-descriptor row, no crate row, and none
of the crate's upper/work/merge directories for the built name — for any
starting state. -/
theorem buildHandler_failure_cleanup (cratesBase name : String)
    (lowerlayers : List String) (nSteps : Nat) (stepFails : Nat → Bool)
    (st : PipeState) (hfail : (List.range nSteps).any stepFails = true) :
    ∃ st', buildHandler cratesBase name lowerlayers nSteps stepFails st = .exited 1 st' ∧
      name ∉ st'.files ∧ name ∉ st'.crates ∧
      (cratesBase ++ "/" ++ name) ∉ st'.paths ∧
      (cratesBase ++ "/" ++ name ++ "_work") ∉ st'.paths ∧
      (cratesBase ++ "/" ++ name ++ "_merge") ∉ st'.paths := by
  refine ⟨removeCrateHandler cratesBase name
      (writeCrateFile name (createAndMountOverlay cratesBase (cratesBase ++ "/" ++ name)
        lowerlayers (cratesBase ++ "/" ++ name ++ "_work")
        (cratesBase ++ "/" ++ name ++ "_merge")
        (if checkName st name then removeCrateOp cratesBase name st else st))), ?_, ?_⟩
  · rw [buildHandler]
    simp only [hfail, if_true]
  · exact removeCrateHandler_cleans cratesBase name _ (by simp [checkName, writeCrateFile])

/-- Witness for C3 on a one-failing-step build from the empty state. -/
theorem buildHandler_failure_cleanup_witness :
    ∃ st', buildHandler "/c" "app" ["debian"] 1 (fun _ => true) ⟨[], [], [], []⟩ =
        .exited 1 st' ∧
      "app" ∉ st'.files ∧ "app" ∉ st'.crates ∧
      ("/c" ++ "/" ++ "app") ∉ st'.paths ∧
      ("/c" ++ "/" ++ "app" ++ "_work") ∉ st'.paths ∧
      ("/c" ++ "/" ++ "app" ++ "_merge") ∉ st'.paths :=
  buildHandler_failure_cleanup "/c" "app" ["debian"] 1 (fun _ => true)
    ⟨[], [], [], []⟩ (by decide)

end Shipper
